import Mathlib

/-!
Shallow embedding of the price-update ingestion pipeline of the
used-vehicle backend (`src/services/priceProcessor.ts`, the
`PriceProcessorService` class), together with the administrative trigger
endpoint (`HealthController.triggerPriceProcessing`) and the vehicle
repository price-update boundary.

Two complementary models are developed:

* a *data-flow* model: `processCSVStream`, `processFromS3`,
  `processFromLocal` and `startProcessingRun` compute, for one run, the
  realized price-update records, the Vehicle-Repository `updatePrice`
  calls actually issued, and the log lines emitted — as pure functions of
  an environment describing the remote listing, the downloads and the
  local file;
* an *interleaving* model (further below): each `startProcessing` caller
  is a task that advances through the synchronous segments of the
  function (the code between its `await` suspension points), and a
  schedule chooses which task runs; the single-flight guard flags
  (`processingLock`, `isProcessing`) live in the shared state.

JavaScript numbers coming out of `parseFloat` are modelled as
`Option ℚ`: `none` stands for `NaN` (no numeric prefix), `some q` for the
finite value `q`.  Timestamps (`Date.getTime()`, `new Date()`) are
modelled as `Nat` clock values.
-/

namespace VehiclePrices

/-- Log severity of the winston logger calls that appear in the service. -/
inductive LogLevel
  | info
  | warn
  | error
deriving Repr, DecidableEq

/-- One emitted log line. -/
structure LogLine where
  level : LogLevel
  msg : String
deriving Repr, DecidableEq

/-- Interface `PriceUpdate` from `src/types` (interface PriceUpdate):
`{ vehicleId: string; newPrice: number; timestamp: Date }`.
`newPrice` is the result of `parseFloat(row.new_price)`, so it may be
`NaN`, modelled as `none`. -/
structure PriceUpdate where
  vehicleId : String
  newPrice : Option ℚ
  timestamp : Nat
deriving Repr, DecidableEq

/-- One row handed to the `data` handler by `csv-parser`: the two columns
the service reads (`row.vehicle_id`, `row.new_price`), as raw strings. -/
structure CSVRow where
  vehicle_id : String
  new_price : String
deriving Repr, DecidableEq

/-- One invocation of `VehicleRepository.updatePrice(id, price)`
(`src/repositories/vehicleRepository.ts`). -/
structure RepoCall where
  vehicleId : String
  price : Option ℚ
deriving Repr, DecidableEq

/-- Value of a digit string read left to right. -/
def digitsToNat (ds : List Char) : Nat :=
  ds.foldl (fun n c => 10 * n + (c.toNat - 48)) 0

/-- Unsigned part of JavaScript `parseFloat`: longest prefix
`digits [ . digits ]`; `none` when no digit is found (→ `NaN`). -/
def parseUnsigned (cs : List Char) : Option ℚ :=
  let ip := cs.takeWhile Char.isDigit
  let rest := cs.dropWhile Char.isDigit
  match rest with
  | '.' :: rest2 =>
      let fp := rest2.takeWhile Char.isDigit
      if ip.isEmpty && fp.isEmpty then none
      else some ((digitsToNat ip : ℚ) + (digitsToNat fp : ℚ) / ((10 : ℚ) ^ fp.length))
  | _ => if ip.isEmpty then none else some ((digitsToNat ip : ℚ))

/-- JavaScript `parseFloat`: skip leading whitespace, optional sign, then
the longest decimal prefix; `NaN` (here `none`) when no digits can be
consumed.  (Exponents and `Infinity` do not occur in price feeds and are
not modelled.) -/
def parseFloat (s : String) : Option ℚ :=
  match s.toList.dropWhile (fun c => c == ' ' || c == '\t' || c == '\n' || c == '\r') with
  | '-' :: cs => (parseUnsigned cs).map (fun q => -q)
  | '+' :: cs => parseUnsigned cs
  | cs => parseUnsigned cs

/-- The `data` handler of `processCSVStream`: one row becomes one
`PriceUpdate` with `newPrice = parseFloat(row.new_price)` and
`timestamp = new Date()` — the clock value `now` at parse time, not a
value read from the row. -/
def rowToUpdate (now : Nat) (row : CSVRow) : PriceUpdate :=
  { vehicleId := row.vehicle_id
    newPrice := parseFloat row.new_price
    timestamp := now }

/-- Method `PriceProcessorService.processUpdatesConcurrently`: despite its name
and comment, its body only logs — it issues no repository call for any
update.  It returns the log lines it emits and the (empty) list of
`updatePrice` calls it performs. -/
def processUpdatesConcurrently (updates : List PriceUpdate) :
    List LogLine × List RepoCall :=
  if updates.length = 0 then
    ([⟨.info, "No price updates to process"⟩], [])
  else
    ([⟨.info, "Price updates processed successfully"⟩], [])

/-- What the spec's apply step demands: one Vehicle-Repository
`updatePrice` call per realized record, in order.  Kept separate from
`processUpdatesConcurrently` (which embeds the source) so the two can be
compared. -/
def specApplyPerRecord (updates : List PriceUpdate) : List RepoCall :=
  updates.map (fun u => { vehicleId := u.vehicleId, price := u.newPrice })

/-- Outcome of `processCSVStream` when the stream ends normally. -/
structure StreamOut where
  logs : List LogLine
  calls : List RepoCall
  updates : List PriceUpdate
deriving Repr, DecidableEq

/-- Method `PriceProcessorService.processCSVStream`: the input is either a
stream error (the promise rejects with it) or the realized row list; on
normal end every row is mapped to a record and the batch is handed to
`processUpdatesConcurrently`.  No numeric validation happens: a
malformed price field never rejects the promise. -/
def processCSVStream (now : Nat) (stream : Except String (List CSVRow)) :
    Except String StreamOut :=
  match stream with
  | .error e => .error e
  | .ok rows =>
      let updates := rows.map (rowToUpdate now)
      let (lgs, calls) := processUpdatesConcurrently updates
      .ok { logs := lgs, calls := calls, updates := updates }

/-- One object of the S3 `listObjectsV2` result: key and
`LastModified.getTime()` (0 when absent, as in the source's `|| 0`). -/
structure S3Object where
  key : String
  lastModified : Nat
deriving Repr, DecidableEq

/-- JavaScript `String.prototype.endsWith`, as a suffix test on the
character sequences. -/
def strEndsWith (s suf : String) : Bool :=
  List.isSuffixOf suf.toList s.toList

/-- The filter `obj.Key?.endsWith('.csv')`. -/
def isCsvKey (o : S3Object) : Bool := strEndsWith o.key ".csv"

/-- One step of a stable insertion sort by descending `lastModified`:
`x` (earlier in the original listing than everything already sorted) is
placed before the first element whose timestamp does not exceed `x`'s,
so equal timestamps keep listing order — the stable behaviour of
JavaScript `Array.prototype.sort` with the comparator
`(a, b) => b.LastModified.getTime() - a.LastModified.getTime()`. -/
def insertByTime (x : S3Object) : List S3Object → List S3Object
  | [] => [x]
  | y :: l => if y.lastModified ≤ x.lastModified then x :: y :: l else y :: insertByTime x l

/-- Stable sort by descending modification time. -/
def sortByTimeDesc (l : List S3Object) : List S3Object :=
  l.foldr insertByTime []

/-- The selection in `processFromS3`: filter to `.csv` keys, sort by
descending `LastModified`, take the first element. -/
def selectLatest (objs : List S3Object) : Option S3Object :=
  (sortByTimeDesc (objs.filter isCsvKey)).head?

/-- Selection rule in the spec's words: the first object, in listing
order, among the `.csv` objects of maximal modification time.  Kept
separate from `selectLatest` so the two can be compared. -/
def selectFirstMax (objs : List S3Object) : Option S3Object :=
  let c := objs.filter isCsvKey
  c.find? (fun o => c.all (fun o2 => o2.lastModified ≤ o.lastModified))

/-- Environment seen by `processFromS3`: whether `AWS_S3_BUCKET` is set,
the result of `listObjectsV2` (its `Contents`, or a thrown error), and
per key the result of streaming `getObject` (its rows, or a stream
error). -/
structure S3Env where
  bucketConfigured : Bool
  listing : Except String (List S3Object)
  download : String → Except String (List CSVRow)

/-- Result of one source-processing method (`processFromS3` or
`processFromLocal`): emitted logs, issued repository calls, the batch of
records realized from the file it processed (`none` when no file was
processed), and the error it threw to its caller, if any (thrown *after*
logging, per the `catch` blocks). -/
structure SourceResult where
  logs : List LogLine
  calls : List RepoCall
  batch : Option (List PriceUpdate)
  err : Option String
deriving Repr, DecidableEq

/-- Method `PriceProcessorService.processFromS3`.  Missing bucket configuration
and an empty or `.csv`-free listing are quiet "no data" exits; an error
thrown by listing or download is logged (`Failed to process S3 CSV`) and
*rethrown* to `startProcessing`. -/
def processFromS3 (now : Nat) (env : S3Env) : SourceResult :=
  if !env.bucketConfigured then
    { logs := [⟨.warn, "S3 bucket not configured, skipping S3 processing"⟩]
      calls := [], batch := none, err := none }
  else
    match env.listing with
    | .error e =>
        { logs := [⟨.error, "Failed to process S3 CSV"⟩]
          calls := [], batch := none, err := some e }
    | .ok contents =>
        if contents.isEmpty then
          { logs := [⟨.info, "No CSV files found in S3 bucket"⟩]
            calls := [], batch := none, err := none }
        else
          match selectLatest contents with
          | none =>
              { logs := [⟨.info, "No CSV files found in S3 bucket"⟩]
                calls := [], batch := none, err := none }
          | some latest =>
              match processCSVStream now (env.download latest.key) with
              | .error e =>
                  { logs := [⟨.info, "Processing CSV file: " ++ latest.key⟩,
                             ⟨.error, "Failed to process S3 CSV"⟩]
                    calls := [], batch := none, err := some e }
              | .ok r =>
                  { logs := [⟨.info, "Processing CSV file: " ++ latest.key⟩] ++ r.logs ++
                             [⟨.info, "Successfully processed " ++ latest.key⟩]
                    calls := r.calls, batch := some r.updates, err := none }

/-- Environment seen by `processFromLocal`: `none` when
`data/price-updates.csv` does not exist, otherwise the stream obtained
from it. -/
structure LocalEnv where
  file : Option (Except String (List CSVRow))

/-- Method `PriceProcessorService.processFromLocal`: a missing file is a quiet
"no data" exit; a stream error is logged (`Failed to process local CSV`)
and rethrown. -/
def processFromLocal (now : Nat) (env : LocalEnv) : SourceResult :=
  match env.file with
  | none =>
      { logs := [⟨.info, "No local CSV file found"⟩]
        calls := [], batch := none, err := none }
  | some stream =>
      match processCSVStream now stream with
      | .error e =>
          { logs := [⟨.info, "Processing local CSV file"⟩,
                     ⟨.error, "Failed to process local CSV"⟩]
            calls := [], batch := none, err := some e }
      | .ok r =>
          { logs := [⟨.info, "Processing local CSV file"⟩] ++ r.logs ++
                     [⟨.info, "Successfully processed local CSV file"⟩]
            calls := r.calls, batch := some r.updates, err := none }

/-- Everything one run of `startProcessing` did, data-flow view:
logs, repository calls, the batches realized from each source
(`none` = that source processed no file), and whether
`processFromLocal` was reached at all. -/
structure RunResult where
  logs : List LogLine
  calls : List RepoCall
  remoteBatch : Option (List PriceUpdate)
  localBatch : Option (List PriceUpdate)
  localProcessed : Bool
deriving Repr, DecidableEq

/-- The `try` body of `PriceProcessorService.startProcessing` (the guard
is handled by the interleaving model below): `processFromS3`, then —
only if it did not throw — `processFromLocal`; an error thrown by either
is caught and logged, never propagated.  In particular, when
`processFromS3` throws, `processFromLocal` is never invoked. -/
def startProcessingRun (now : Nat) (s3 : S3Env) (lo : LocalEnv) : RunResult :=
  let start := [(⟨.info, "Starting price processing from S3 CSV"⟩ : LogLine)]
  let r := processFromS3 now s3
  match r.err with
  | some e =>
      { logs := start ++ r.logs ++ [⟨.error, e⟩]
        calls := r.calls, remoteBatch := r.batch, localBatch := none
        localProcessed := false }
  | none =>
      let l := processFromLocal now lo
      match l.err with
      | some e =>
          { logs := start ++ r.logs ++ l.logs ++ [⟨.error, e⟩]
            calls := r.calls ++ l.calls, remoteBatch := r.batch
            localBatch := l.batch, localProcessed := true }
      | none =>
          { logs := start ++ r.logs ++ l.logs ++
                    [⟨.info, "Price processing completed successfully"⟩]
            calls := r.calls ++ l.calls, remoteBatch := r.batch
            localBatch := l.batch, localProcessed := true }

/-!
## Interleaving model

Each caller of `startProcessing` is a task.  The code between two `await`
suspension points runs as one uninterrupted segment on the single event
loop, so the model advances a task one whole segment per step:

* `idle` — `startProcessing` not yet invoked for this task.  Stepping an
  idle task runs the synchronous entry segment of `startProcessing`
  (lines up to the first `await`): if `processingLock` is set it logs a
  warning and returns (`rejected`); otherwise it sets `processingLock`
  and `isProcessing` — both assignments in the same segment, no
  suspension between them — and proceeds (`remote`);
* `remote` — the awaited `processFromS3` call: on failure control jumps
  to the `catch`/`finally` segment (`finish`), skipping the local step;
* `localStep` — the awaited `processFromLocal` call: whether it fails or
  not, control continues to `finish` (its error is caught there);
* `finish` — the `catch`/`finally` segment: clears `processingLock` and
  `isProcessing`, again with no suspension between the assignments;
* `done` / `rejected` — the promise has settled (it always resolves:
  every error is caught inside the function).

A schedule is the list of task choices; fetch/parse/apply work is
recorded in the event list when a source segment completes. -/

/-- Control position of one `startProcessing` task. -/
inductive Seg
  | idle
  | remote
  | localStep
  | finish
  | done
  | rejected
deriving Repr, DecidableEq

/-- A task is inside the guarded body of `startProcessing` (between the
entry segment that set the flags and the `finally` that clears them). -/
def Seg.active : Seg → Bool
  | .remote => true
  | .localStep => true
  | .finish => true
  | _ => false

/-- Which source's fetch/parse/apply a completed work event belongs to. -/
inductive Work
  | remote
  | loc
deriving Repr, DecidableEq

/-- Shared state of the `PriceProcessorService` instance plus the two
tasks of interest.  `lock` is `processingLock`, `isProc` is
`isProcessing`, `queue` is `processingQueue`; `events` records, in
order, the completed fetch/parse/apply work `(task, source)`. -/
structure Sys where
  lock : Bool
  isProc : Bool
  queue : List PriceUpdate
  t1 : Seg
  t2 : Seg
  events : List (Bool × Work)
deriving Repr, DecidableEq

/-- Process start: flags clear, queue empty, neither caller has invoked
`startProcessing` yet. -/
def Sys.init : Sys :=
  { lock := false, isProc := false, queue := [], t1 := .idle, t2 := .idle
    events := [] }

def Sys.seg (s : Sys) (who : Bool) : Seg := if who then s.t1 else s.t2

def Sys.setSeg (s : Sys) (who : Bool) (g : Seg) : Sys :=
  if who then { s with t1 := g } else { s with t2 := g }

/-- Advance task `who` by one synchronous segment.  `failR` / `failL`
say whether the remote / local source step of this run throws.  Segments
mirror `startProcessing` (file `src/services/priceProcessor.ts`,
lines 31–60). -/
def step (failR failL : Bool) (s : Sys) (who : Bool) : Sys :=
  match s.seg who with
  | .idle =>
      if s.lock then s.setSeg who .rejected
      else { s.setSeg who .remote with lock := true, isProc := true }
  | .remote =>
      if failR then s.setSeg who .finish
      else { s.setSeg who .localStep with events := s.events ++ [(who, .remote)] }
  | .localStep =>
      if failL then s.setSeg who .finish
      else { s.setSeg who .finish with events := s.events ++ [(who, .loc)] }
  | .finish =>
      { s.setSeg who .done with lock := false, isProc := false }
  | .done => s
  | .rejected => s

/-- Run a schedule (list of task choices) from a state. -/
def run (failR failL : Bool) (s : Sys) (sched : List Bool) : Sys :=
  sched.foldl (step failR failL) s

/-- Method `PriceProcessorService.getProcessingStatus`. -/
def getProcessingStatus (s : Sys) : Bool × Nat :=
  (s.isProc, s.queue.length)

/-- Method `PriceProcessorService.isCurrentlyProcessing`. -/
def isCurrentlyProcessing (s : Sys) : Bool :=
  s.isProc

/-- Endpoint handler `HealthController.triggerPriceProcessing`
(`src/controllers/authController.ts`, lines 375–403): if
`isCurrentlyProcessing()` holds it answers 409 and touches nothing;
otherwise it invokes `startProcessing()` — whose synchronous entry
segment runs before the response is produced, the rest running in the
background — and answers 200 without awaiting completion.  The second
argument names the task slot the new call occupies. -/
def triggerPriceProcessing (failR failL : Bool) (s : Sys) (who : Bool) :
    Nat × Sys :=
  if isCurrentlyProcessing s then (409, s)
  else (200, step failR failL s who)

/-- State invariant of the interleaving model: the two guard flags agree,
the lock is held exactly while some task is inside the guarded body, at
most one task is inside it, and the queue is never written. -/
def Inv (s : Sys) : Prop :=
  s.isProc = s.lock ∧
  s.lock = (s.t1.active || s.t2.active) ∧
  ¬(s.t1.active = true ∧ s.t2.active = true) ∧
  s.queue = []

instance (s : Sys) : Decidable (Inv s) := by
  unfold Inv; infer_instance

theorem inv_init : Inv Sys.init := by
  constructor <;> simp [Sys.init, Seg.active]

theorem inv_step (failR failL : Bool) (s : Sys) (who : Bool)
    (h : Inv s) : Inv (step failR failL s who) := by
  obtain ⟨h1, h2, h3, h4⟩ := h
  cases who <;> cases failR <;> cases failL <;>
    simp only [step, Sys.seg, Sys.setSeg, if_true, if_false] <;>
    (cases ht1 : s.t1 <;> cases ht2 : s.t2 <;>
      simp_all [Inv, Seg.active, Sys.setSeg])

theorem inv_run (failR failL : Bool) (s : Sys) (sched : List Bool)
    (h : Inv s) : Inv (run failR failL s sched) := by
  induction sched generalizing s with
  | nil => exact h
  | cons b bs ih =>
      exact ih _ (inv_step failR failL s b h)

/-! ## Concrete sample environments used by the evaluation theorems -/

/-- A well-formed remote feed row: vehicle `veh-1`, price `100`. -/
def rowA : CSVRow := { vehicle_id := "veh-1", new_price := "100" }

/-- A well-formed local feed row: vehicle `veh-2`, price `200`. -/
def rowB : CSVRow := { vehicle_id := "veh-2", new_price := "200" }

/-- A remote listing with one `.csv` object. -/
def objA : S3Object := { key := "price-updates/2024.csv", lastModified := 10 }

/-- Remote environment: bucket configured, one `.csv` object whose
download yields one valid row. -/
def s3OneRow : S3Env :=
  { bucketConfigured := true
    listing := .ok [objA]
    download := fun _ => .ok [rowA] }

/-- Remote environment: bucket configured, but `listObjectsV2` throws. -/
def s3Down : S3Env :=
  { bucketConfigured := true
    listing := .error "network unreachable"
    download := fun _ => .error "network unreachable" }

/-- Local environment: `data/price-updates.csv` exists and holds one
valid row. -/
def localOneRow : LocalEnv := { file := some (.ok [rowB]) }

/-! ## Claim theorems: data-flow model -/

/-- C1: the claim says a run whose remote feed yields M valid rows and
whose local fallback yields N valid rows applies exactly M + N price
updates, one `VehicleRepository.updatePrice` call per record, remote
first.  The code realizes both batches but
`processUpdatesConcurrently` — the only apply step — issues **no**
repository call at all: with M = N = 1 the run performs 0 updates where
the claim (and the spec's apply contract, `specApplyPerRecord`) demands
2.  This theorem evaluates the embedded code at that failing input. -/
theorem C1_apply_step_issues_no_repository_calls :
    (startProcessingRun 5 s3OneRow localOneRow).remoteBatch =
      some [{ vehicleId := "veh-1", newPrice := some 100, timestamp := 5 }] ∧
    (startProcessingRun 5 s3OneRow localOneRow).localBatch =
      some [{ vehicleId := "veh-2", newPrice := some 200, timestamp := 5 }] ∧
    (startProcessingRun 5 s3OneRow localOneRow).calls = [] ∧
    specApplyPerRecord
        (((startProcessingRun 5 s3OneRow localOneRow).remoteBatch).getD [] ++
         ((startProcessingRun 5 s3OneRow localOneRow).localBatch).getD []) ≠
      (startProcessingRun 5 s3OneRow localOneRow).calls := by
  refine ⟨by decide, by decide, by decide, by decide⟩

/-- C3: the claim says that when the remote source is unreachable
(listing throws), the error is logged, the run counts zero remote
updates, and the run **still processes the local fallback**.  In the
code, `processFromS3`'s `catch` logs and *rethrows*; `startProcessing`'s
`catch` then swallows the error — but `processFromLocal()` sits after
the `await this.processFromS3()` inside the same `try`, so it is never
invoked.  Evaluated at a listing failure with a valid local file: the
error is logged twice, yet the local source is not processed. -/
theorem C3_remote_error_skips_fallback :
    (startProcessingRun 5 s3Down localOneRow).localProcessed = false ∧
    (startProcessingRun 5 s3Down localOneRow).localBatch = none ∧
    (⟨.error, "Failed to process S3 CSV"⟩ : LogLine) ∈
      (startProcessingRun 5 s3Down localOneRow).logs ∧
    (⟨.error, "network unreachable"⟩ : LogLine) ∈
      (startProcessingRun 5 s3Down localOneRow).logs := by
  refine ⟨by decide, by decide, by decide, by decide⟩

/-- A five-row feed whose third row has a non-numeric price field. -/
def badRows : List CSVRow :=
  [{ vehicle_id := "v1", new_price := "10" },
   { vehicle_id := "v2", new_price := "20" },
   { vehicle_id := "v3", new_price := "abc" },
   { vehicle_id := "v4", new_price := "40" },
   { vehicle_id := "v5", new_price := "50" }]

/-- C4 counterexample: the claim says a feed file with a non-numeric
price in row 3 of 5 fails the whole parse with a descriptive error.  In
the code, `parseFloat` never throws: the malformed row becomes a record
with `NaN` price (`none`), the stream ends normally, and **all five**
rows are realized and handed to the apply step — the parse succeeds
instead of failing. -/
theorem C4_counterexample_parse_does_not_fail :
    processCSVStream 7 (Except.ok badRows) =
      Except.ok
        { logs := [⟨.info, "Price updates processed successfully"⟩]
          calls := []
          updates :=
            [{ vehicleId := "v1", newPrice := some 10, timestamp := 7 },
             { vehicleId := "v2", newPrice := some 20, timestamp := 7 },
             { vehicleId := "v3", newPrice := none, timestamp := 7 },
             { vehicleId := "v4", newPrice := some 40, timestamp := 7 },
             { vehicleId := "v5", newPrice := some 50, timestamp := 7 }] } := by
  rfl

/-- The apply step never issues a repository call, whatever the batch. -/
theorem processUpdatesConcurrently_calls (updates : List PriceUpdate) :
    (processUpdatesConcurrently updates).2 = [] := by
  unfold processUpdatesConcurrently
  split <;> rfl

/-- On a normally-ending stream, `processCSVStream` resolves with every
row realized through `rowToUpdate` and with the (empty) call list of the
apply step. -/
theorem processCSVStream_ok (now : Nat) (rows : List CSVRow) :
    ∃ r : StreamOut,
      processCSVStream now (Except.ok rows) = Except.ok r ∧
      r.updates = rows.map (rowToUpdate now) ∧
      r.calls = [] := by
  exact ⟨_, rfl, rfl, processUpdatesConcurrently_calls _⟩

/-- C4 amended: a malformed numeric field never fails the parse — for
*every* row list the stream promise resolves, every row (malformed ones
included) is realized as a record via `rowToUpdate`, and zero records
are applied (the apply step is a no-op for every batch). -/
theorem C4_amended_parse_total_apply_empty (now : Nat) (rows : List CSVRow) :
    ∃ r : StreamOut,
      processCSVStream now (Except.ok rows) = Except.ok r ∧
      r.updates = rows.map (rowToUpdate now) ∧
      r.updates.length = rows.length ∧
      r.calls = [] := by
  obtain ⟨r, he, hup, hc⟩ := processCSVStream_ok now rows
  exact ⟨r, he, hup, by rw [hup]; exact List.length_map _ _, hc⟩

/-- C8 counterexample: the claim says every parsed record's `newPrice`
is a non-negative decimal.  The code performs no sign check: a row whose
price field is `"-50"` yields a record with the negative price `-50`. -/
theorem C8_counterexample_negative_price :
    (rowToUpdate 3 { vehicle_id := "v1", new_price := "-50" }).newPrice =
      some (-50 : ℚ) ∧
    (-50 : ℚ) < 0 := by
  refine ⟨by decide, by decide⟩

/-- C8 amended: for every record realized from a row, `newPrice` is
exactly `parseFloat` of the row's price field — unvalidated, so possibly
negative or `NaN` — and the observation timestamp is the parse-time
clock `now`, never a value taken from the row. -/
theorem C8_amended_price_unvalidated_timestamp_is_parse_time
    (now : Nat) (rows : List CSVRow) (r : StreamOut)
    (h : processCSVStream now (Except.ok rows) = Except.ok r) :
    ∀ u ∈ r.updates,
      u.timestamp = now ∧
      ∃ row ∈ rows,
        u.vehicleId = row.vehicle_id ∧ u.newPrice = parseFloat row.new_price := by
  intro u hu
  have hr : r.updates = rows.map (rowToUpdate now) := by
    obtain ⟨r0, he, hup, -⟩ := processCSVStream_ok now rows
    rw [he] at h
    injection h with h2
    rw [← h2, hup]
  rw [hr] at hu
  obtain ⟨row, hrow, hmap⟩ := List.mem_map.1 hu
  exact ⟨by rw [← hmap]; rfl, row, hrow, by rw [← hmap]; rfl, by rw [← hmap]; rfl⟩

/-- Witness for the amended C8 statement at a concrete input: the
single-row stream `[rowA]`, whose record carries timestamp 5 and the
parsed price 100. -/
theorem C8_amended_witness :
    processCSVStream 5 (Except.ok [rowA]) =
      Except.ok
        { logs := [⟨.info, "Price updates processed successfully"⟩]
          calls := []
          updates := [{ vehicleId := "veh-1", newPrice := some 100, timestamp := 5 }] } ∧
    ({ vehicleId := "veh-1", newPrice := some 100, timestamp := 5 } : PriceUpdate) ∈
      [({ vehicleId := "veh-1", newPrice := some 100, timestamp := 5 } : PriceUpdate)] ∧
    (({ vehicleId := "veh-1", newPrice := some 100, timestamp := 5 } : PriceUpdate).timestamp = 5 ∧
      ∃ row ∈ [rowA],
        ({ vehicleId := "veh-1", newPrice := some 100, timestamp := 5 } : PriceUpdate).vehicleId =
            row.vehicle_id ∧
          ({ vehicleId := "veh-1", newPrice := some 100, timestamp := 5 } : PriceUpdate).newPrice =
            parseFloat row.new_price) :=
  ⟨rfl, by decide,
    C8_amended_price_unvalidated_timestamp_is_parse_time 5 [rowA]
      { logs := [⟨.info, "Price updates processed successfully"⟩]
        calls := []
        updates := [{ vehicleId := "veh-1", newPrice := some 100, timestamp := 5 }] }
      rfl
      { vehicleId := "veh-1", newPrice := some 100, timestamp := 5 } (by decide)⟩

/-! ## Claim theorems: interleaving model -/

/-- C9: no operation of the service ever enqueues to `processingQueue`:
in every state reachable by any schedule of the two tasks, with any
source-failure pattern, the queue is empty and `getProcessingStatus`
reports `queueLength = 0`. -/
theorem C9_processing_queue_always_empty
    (failR failL : Bool) (sched : List Bool) :
    (run failR failL Sys.init sched).queue = [] ∧
    (getProcessingStatus (run failR failL Sys.init sched)).2 = 0 := by
  have h := inv_run failR failL Sys.init sched inv_init
  exact ⟨h.2.2.2, by simp [getProcessingStatus, h.2.2.2]⟩

/-- C10: at every suspension point — i.e. in every state reachable by
any schedule, where callers can observe the service — the observable
`isProcessing` flag equals the internal `processingLock` guard flag, so
`isCurrentlyProcessing()` returns exactly the value of the single-flight
guard.  (The two assignments happen inside one synchronous segment of
`startProcessing`, lines 37–38 and 57–58, with no `await` between
them.) -/
theorem C10_isProcessing_equals_lock
    (failR failL : Bool) (sched : List Bool) :
    isCurrentlyProcessing (run failR failL Sys.init sched) =
      (run failR failL Sys.init sched).lock :=
  (inv_run failR failL Sys.init sched inv_init).1

/-- C5: once the first caller's `startProcessing` promise has settled
(its task is `done`) — whatever the failure pattern of the remote and
local steps, thanks to the `finally` segment — both guard flags are
clear, so `isCurrentlyProcessing()` is false and a subsequent
`startProcessing()` call enters the run body (reaches the remote step)
instead of being rejected. -/
theorem C5_guard_always_releases
    (failR failL failR2 failL2 : Bool) (sched : List Bool)
    (h1 : (run failR failL Sys.init sched).t1 = Seg.done)
    (h2 : (run failR failL Sys.init sched).t2 = Seg.idle) :
    isCurrentlyProcessing (run failR failL Sys.init sched) = false ∧
    (run failR failL Sys.init sched).lock = false ∧
    (step failR2 failL2 (run failR failL Sys.init sched) false).t2 = Seg.remote := by
  obtain ⟨e1, e2, -, -⟩ := inv_run failR failL Sys.init sched inv_init
  have hlock : (run failR failL Sys.init sched).lock = false := by
    rw [e2, h1, h2]; rfl
  refine ⟨?_, hlock, ?_⟩
  · show (run failR failL Sys.init sched).isProc = false
    rw [e1, hlock]
  · simp [step, Sys.seg, Sys.setSeg, h2, hlock]

/-- Witness for C5 at a concrete input: a run in which the remote step
throws (`failR = true`) and that is driven to settlement by three task-1
steps; the flags are clear afterwards and a fresh call enters the run
body. -/
theorem C5_witness :
    (run true true Sys.init [true, true, true]).t1 = Seg.done ∧
    (run true true Sys.init [true, true, true]).t2 = Seg.idle ∧
    (isCurrentlyProcessing (run true true Sys.init [true, true, true]) = false ∧
      (run true true Sys.init [true, true, true]).lock = false ∧
      (step false false (run true true Sys.init [true, true, true]) false).t2 = Seg.remote) :=
  ⟨by decide, by decide,
    C5_guard_always_releases true true false false [true, true, true]
      (by decide) (by decide)⟩

/-- C6: the administrative trigger endpoint, evaluated against any
service state satisfying the machine invariant: while a run is active it
answers 409 (a conflict, not a 500) and leaves the state untouched —
no work is started; while idle it answers 200 with the new run already
admitted (its task is at the remote step, i.e. processing was started
but the response did not wait for completion). -/
theorem C6_trigger_conflict_or_ack
    (failR failL : Bool) (s : Sys) (who : Bool) (h : Inv s) :
    (isCurrentlyProcessing s = true →
      triggerPriceProcessing failR failL s who = (409, s)) ∧
    (isCurrentlyProcessing s = false → s.seg who = Seg.idle →
      (triggerPriceProcessing failR failL s who).1 = 200 ∧
      ((triggerPriceProcessing failR failL s who).2.seg who = Seg.remote) ∧
      (triggerPriceProcessing failR failL s who).2.lock = true ∧
      (triggerPriceProcessing failR failL s who).2.isProc = true) := by
  obtain ⟨e1, -, -, -⟩ := h
  constructor
  · intro hb
    simp [triggerPriceProcessing, hb]
  · intro hi hidle
    have hlock : s.lock = false := by rw [← e1]; exact hi
    cases who <;>
      simp_all [triggerPriceProcessing, isCurrentlyProcessing, step, Sys.seg, Sys.setSeg]

/-- Witness for C6 at a concrete input: the initial state (invariant
holds, not processing, task slot 1 idle) gets a 200 acknowledgement with
the run admitted. -/
theorem C6_witness :
    Inv Sys.init ∧
    ((isCurrentlyProcessing Sys.init = true →
        triggerPriceProcessing false false Sys.init true = (409, Sys.init)) ∧
      (isCurrentlyProcessing Sys.init = false → Sys.init.seg true = Seg.idle →
        (triggerPriceProcessing false false Sys.init true).1 = 200 ∧
        ((triggerPriceProcessing false false Sys.init true).2.seg true = Seg.remote) ∧
        (triggerPriceProcessing false false Sys.init true).2.lock = true ∧
        (triggerPriceProcessing false false Sys.init true).2.isProc = true)) :=
  ⟨by decide, C6_trigger_conflict_or_ack false false Sys.init true (by decide)⟩

/-! ## C2: single-flight guard -/

/-- The event trace of one complete failure-free run by task 1. -/
def soloEvents : List (Bool × Work) := [(true, Work.remote), (true, Work.loc)]

/-- Execution phase of the two-caller scenario of C2: task 2 sits at
`t2v` (first `idle`, after its call `rejected`), the queue is untouched,
and task 1's position determines the whole event trace and the guard
flags. -/
def PhaseOk (t2v : Seg) (s : Sys) : Prop :=
  s.t2 = t2v ∧ s.queue = [] ∧
  ((s.t1 = Seg.remote ∧ s.events = [] ∧ s.lock = true ∧ s.isProc = true) ∨
   (s.t1 = Seg.localStep ∧ s.events = [(true, Work.remote)] ∧ s.lock = true ∧ s.isProc = true) ∨
   (s.t1 = Seg.finish ∧ s.events = soloEvents ∧ s.lock = true ∧ s.isProc = true) ∨
   (s.t1 = Seg.done ∧ s.events = soloEvents ∧ s.lock = false ∧ s.isProc = false))

instance (t2v : Seg) (s : Sys) : Decidable (PhaseOk t2v s) := by
  unfold PhaseOk; infer_instance

theorem phaseOk_step_t1 (t2v : Seg) (s : Sys) (h : PhaseOk t2v s) :
    PhaseOk t2v (step false false s true) := by
  obtain ⟨h2, hq, hcase⟩ := h
  rcases hcase with ⟨ht, he, hl, hp⟩ | ⟨ht, he, hl, hp⟩ | ⟨ht, he, hl, hp⟩ | ⟨ht, he, hl, hp⟩ <;>
    simp [PhaseOk, step, Sys.seg, Sys.setSeg, ht, he, hl, hp, h2, hq, soloEvents]

theorem phaseOk_step_t2_rejected (s : Sys) (who : Bool)
    (h : PhaseOk Seg.rejected s) :
    PhaseOk Seg.rejected (step false false s who) := by
  cases who
  · show PhaseOk Seg.rejected (step false false s false)
    have heq : step false false s false = s := by
      simp [step, Sys.seg, h.1]
    rw [heq]; exact h
  · exact phaseOk_step_t1 Seg.rejected s h

theorem phaseOk_run_t2_rejected (s : Sys) (sched : List Bool)
    (h : PhaseOk Seg.rejected s) :
    PhaseOk Seg.rejected (run false false s sched) := by
  induction sched generalizing s with
  | nil => exact h
  | cons b bs ih => exact ih _ (phaseOk_step_t2_rejected s b h)

theorem phaseOk_run_t1 (m : Nat) (s : Sys) (h : PhaseOk Seg.idle s) :
    PhaseOk Seg.idle (run false false s (List.replicate m true)) := by
  induction m generalizing s with
  | zero => exact h
  | succ k ih =>
      rw [List.replicate_succ]
      exact ih _ (phaseOk_step_t1 Seg.idle s h)

theorem phaseOk_replicate (n : Nat) (hn : 1 ≤ n) :
    PhaseOk Seg.idle (run false false Sys.init (List.replicate n true)) := by
  obtain ⟨m, rfl⟩ : ∃ m, n = m + 1 := ⟨n - 1, (Nat.succ_pred_eq_of_pos hn).symm⟩
  have h0 : PhaseOk Seg.idle (step false false Sys.init true) := by decide
  rw [List.replicate_succ]
  exact phaseOk_run_t1 m _ h0

theorem phaseOk_entry_rejected (s : Sys)
    (h : PhaseOk Seg.idle s) (hnd : s.t1 ≠ Seg.done) :
    step false false s false = s.setSeg false Seg.rejected ∧
    PhaseOk Seg.rejected (step false false s false) := by
  obtain ⟨h2, hq, hcase⟩ := h
  have hl : s.lock = true := by
    rcases hcase with ⟨-, -, hl, -⟩ | ⟨-, -, hl, -⟩ | ⟨-, -, hl, -⟩ | ⟨ht, -, -, -⟩
    · exact hl
    · exact hl
    · exact hl
    · exact absurd ht hnd
  have heq : step false false s false = s.setSeg false Seg.rejected := by
    simp [step, Sys.seg, h2, hl]
  refine ⟨heq, ?_⟩
  rw [heq]
  exact ⟨rfl, hq, hcase⟩

/-- C2: two back-to-back `startProcessing()` calls, the second issued
before the first resolves.  The first caller (task 1) has taken `n ≥ 1`
steps from process start — its entry segment and possibly more — but has
not yet settled.  The second caller's entry segment then observes
`processingLock`, marks itself rejected (the code logs a warning and
`return`s; the promise resolves, no error is raised), and changes
nothing else.  However the rest of the schedule interleaves the two
tasks afterwards, the second caller contributes no fetch/parse/apply
event, and if the first caller reaches settlement the whole trace is
exactly one run's worth of work. -/
theorem C2_second_call_rejected_exactly_one_run (n : Nat) (sched : List Bool)
    (hn : 1 ≤ n)
    (hnd : (run false false Sys.init (List.replicate n true)).t1 ≠ Seg.done) :
    (step false false (run false false Sys.init (List.replicate n true)) false).t2 =
      Seg.rejected ∧
    (step false false (run false false Sys.init (List.replicate n true)) false).events =
      (run false false Sys.init (List.replicate n true)).events ∧
    (∀ w : Work,
      ((false : Bool), w) ∉
        (run false false
            (step false false (run false false Sys.init (List.replicate n true)) false)
            sched).events) ∧
    ((run false false
        (step false false (run false false Sys.init (List.replicate n true)) false)
        sched).t1 = Seg.done →
      (run false false
          (step false false (run false false Sys.init (List.replicate n true)) false)
          sched).events = soloEvents) := by
  have h1 : PhaseOk Seg.idle (run false false Sys.init (List.replicate n true)) :=
    phaseOk_replicate n hn
  obtain ⟨heq, h2⟩ := phaseOk_entry_rejected _ h1 hnd
  have hfin :
      PhaseOk Seg.rejected
        (run false false
          (step false false (run false false Sys.init (List.replicate n true)) false)
          sched) :=
    phaseOk_run_t2_rejected _ sched h2
  refine ⟨h2.1, ?_, ?_, ?_⟩
  · rw [heq]; rfl
  · intro w hw
    obtain ⟨-, -, hcase⟩ := hfin
    rcases hcase with ⟨-, he, -, -⟩ | ⟨-, he, -, -⟩ | ⟨-, he, -, -⟩ | ⟨-, he, -, -⟩ <;>
      rw [he] at hw <;> simp [soloEvents] at hw
  · intro hdone
    obtain ⟨-, -, hcase⟩ := hfin
    rcases hcase with ⟨ht, -, -, -⟩ | ⟨ht, -, -, -⟩ | ⟨ht, -, -, -⟩ | ⟨-, he, -, -⟩
    · rw [ht] at hdone; exact absurd hdone (by simp)
    · rw [ht] at hdone; exact absurd hdone (by simp)
    · rw [ht] at hdone; exact absurd hdone (by simp)
    · exact he

/-- Witness for C2 at a concrete input: the first caller has executed
exactly its entry segment (`n = 1`); the second caller is then rejected,
and three further first-caller steps settle the run with exactly one
run's event trace. -/
theorem C2_witness :
    1 ≤ 1 ∧
    (run false false Sys.init (List.replicate 1 true)).t1 ≠ Seg.done ∧
    ((step false false (run false false Sys.init (List.replicate 1 true)) false).t2 =
        Seg.rejected ∧
      (step false false (run false false Sys.init (List.replicate 1 true)) false).events =
        (run false false Sys.init (List.replicate 1 true)).events ∧
      (∀ w : Work,
        ((false : Bool), w) ∉
          (run false false
              (step false false (run false false Sys.init (List.replicate 1 true)) false)
              [true, true, true]).events) ∧
      ((run false false
          (step false false (run false false Sys.init (List.replicate 1 true)) false)
          [true, true, true]).t1 = Seg.done →
        (run false false
            (step false false (run false false Sys.init (List.replicate 1 true)) false)
            [true, true, true]).events = soloEvents)) :=
  ⟨by decide, by decide,
    C2_second_call_rejected_exactly_one_run 1 [true, true, true]
      (by decide) (by decide)⟩

/-! ## C7: deterministic selection of the most recent feed object -/

/-- Descending order on modification times, as a relation. -/
def timeGE (a b : S3Object) : Prop := b.lastModified ≤ a.lastModified

theorem mem_insertByTime (a x : S3Object) (l : List S3Object) :
    a ∈ insertByTime x l ↔ a = x ∨ a ∈ l := by
  induction l with
  | nil => simp [insertByTime]
  | cons y l ih =>
      by_cases hc : y.lastModified ≤ x.lastModified
      · simp [insertByTime, hc]
      · simp [insertByTime, hc, ih]
        tauto

theorem mem_sortByTimeDesc (a : S3Object) (l : List S3Object) :
    a ∈ sortByTimeDesc l ↔ a ∈ l := by
  induction l with
  | nil => exact Iff.rfl
  | cons x l ih =>
      show a ∈ insertByTime x (sortByTimeDesc l) ↔ _
      rw [mem_insertByTime]
      simp [ih]

theorem length_insertByTime (x : S3Object) (l : List S3Object) :
    (insertByTime x l).length = l.length + 1 := by
  induction l with
  | nil => rfl
  | cons y l ih =>
      by_cases hc : y.lastModified ≤ x.lastModified <;>
        simp [insertByTime, hc, ih]

theorem length_sortByTimeDesc (l : List S3Object) :
    (sortByTimeDesc l).length = l.length := by
  induction l with
  | nil => rfl
  | cons x l ih =>
      show (insertByTime x (sortByTimeDesc l)).length = _
      rw [length_insertByTime, ih]
      rfl

theorem pairwise_insertByTime (x : S3Object) (l : List S3Object)
    (h : l.Pairwise timeGE) : (insertByTime x l).Pairwise timeGE := by
  induction l with
  | nil => simp [insertByTime, timeGE]
  | cons y l ih =>
      rw [List.pairwise_cons] at h
      obtain ⟨hy, hl⟩ := h
      by_cases hc : y.lastModified ≤ x.lastModified
      · simp only [insertByTime, if_pos hc]
        rw [List.pairwise_cons]
        refine ⟨?_, ?_⟩
        · intro z hz
          rcases List.mem_cons.1 hz with rfl | hz2
          · exact hc
          · exact le_trans (hy z hz2) hc
        · rw [List.pairwise_cons]
          exact ⟨hy, hl⟩
      · simp only [insertByTime, if_neg hc]
        rw [List.pairwise_cons]
        refine ⟨?_, ih hl⟩
        intro z hz
        rcases (mem_insertByTime z x l).1 hz with rfl | hz2
        · exact Nat.le_of_lt (Nat.lt_of_not_le hc)
        · exact hy z hz2

theorem pairwise_sortByTimeDesc (l : List S3Object) :
    (sortByTimeDesc l).Pairwise timeGE := by
  induction l with
  | nil => exact List.Pairwise.nil
  | cons x l ih => exact pairwise_insertByTime x _ ih

/-- A `find?` with a stronger predicate returns the same witness when
that witness satisfies the stronger predicate. -/
theorem find?_of_imp {α : Type} (p q : α → Bool) (l : List α)
    (himp : ∀ a, p a = true → q a = true) (y : α)
    (hq : l.find? q = some y) (hp : p y = true) :
    l.find? p = some y := by
  induction l with
  | nil => simp at hq
  | cons a l ih =>
      by_cases hqa : q a = true
      · rw [List.find?_cons_of_pos _ hqa] at hq
        injection hq with hay
        subst hay
        rw [List.find?_cons_of_pos _ hp]
      · have hpa : ¬ p a = true := fun hcon => hqa (himp a hcon)
        rw [List.find?_cons_of_neg _ (by simpa using hqa)] at hq
        rw [List.find?_cons_of_neg _ (by simpa using hpa)]
        exact ih hq

/-- Head of the stable descending sort: the first element of the list,
in original order, whose modification time dominates the whole list. -/
theorem head?_sortByTimeDesc (l : List S3Object) :
    (sortByTimeDesc l).head? =
      l.find? (fun o => l.all (fun o2 => o2.lastModified ≤ o.lastModified)) := by
  induction l with
  | nil => rfl
  | cons x l ih =>
      show (insertByTime x (sortByTimeDesc l)).head? = _
      cases hs : sortByTimeDesc l with
      | nil =>
          have hl : l = [] := by
            have hlen := congrArg List.length hs
            rw [length_sortByTimeDesc] at hlen
            exact List.length_eq_zero.1 hlen
          subst hl
          simp [insertByTime]
      | cons y r =>
          have hymem : y ∈ l := by
            rw [← mem_sortByTimeDesc, hs]
            exact List.mem_cons_self y r
          by_cases hyx : y.lastModified ≤ x.lastModified
          · have hall : ∀ o2 ∈ l, o2.lastModified ≤ x.lastModified := by
              intro o2 ho2
              have hmem : o2 ∈ sortByTimeDesc l := (mem_sortByTimeDesc o2 l).2 ho2
              rw [hs] at hmem
              rcases List.mem_cons.1 hmem with rfl | hmem2
              · exact hyx
              · have hpw := pairwise_sortByTimeDesc l
                rw [hs, List.pairwise_cons] at hpw
                exact le_trans (hpw.1 o2 hmem2) hyx
            have hpx :
                ((x :: l).all (fun o2 => decide (o2.lastModified ≤ x.lastModified))) = true := by
              rw [List.all_eq_true]
              intro o2 ho2
              rcases List.mem_cons.1 ho2 with rfl | h2
              · simp
              · simpa using hall o2 h2
            have hfind :
                List.find?
                    (fun o => (x :: l).all fun o2 => decide (o2.lastModified ≤ o.lastModified))
                    (x :: l) = some x :=
              List.find?_cons_of_pos l hpx
            simp only [insertByTime, if_pos hyx, List.head?_cons]
            exact hfind.symm
          · have hpxf :
                ¬ ((x :: l).all (fun o2 => decide (o2.lastModified ≤ x.lastModified)) = true) := by
              rw [List.all_eq_true]
              intro hcon
              exact hyx (by simpa using hcon y (List.mem_cons_of_mem x hymem))
            have hfq :
                l.find? (fun o => l.all (fun o2 => decide (o2.lastModified ≤ o.lastModified))) =
                  some y := by
              rw [← ih, hs]
              rfl
            have hqy0 := List.find?_some hfq
            have hqy :
                (l.all (fun o2 => decide (o2.lastModified ≤ y.lastModified))) = true := hqy0
            have hpy :
                ((x :: l).all (fun o2 => decide (o2.lastModified ≤ y.lastModified))) = true := by
              rw [List.all_eq_true]
              intro o2 ho2
              rcases List.mem_cons.1 ho2 with rfl | h2
              · simp [Nat.le_of_lt (Nat.lt_of_not_le hyx)]
              · rw [List.all_eq_true] at hqy
                exact hqy o2 h2
            have hstep :
                List.find?
                    (fun o => (x :: l).all fun o2 => decide (o2.lastModified ≤ o.lastModified))
                    (x :: l) =
                  List.find?
                    (fun o => (x :: l).all fun o2 => decide (o2.lastModified ≤ o.lastModified))
                    l :=
              List.find?_cons_of_neg l hpxf
            simp only [insertByTime, if_neg hyx, List.head?_cons]
            rw [hstep]
            exact (find?_of_imp
              (fun o => (x :: l).all (fun o2 => decide (o2.lastModified ≤ o.lastModified)))
              (fun o => l.all (fun o2 => decide (o2.lastModified ≤ o.lastModified)))
              l
              (fun a ha => by
                have ha2 :
                    (decide (x.lastModified ≤ a.lastModified) &&
                      l.all (fun o2 => decide (o2.lastModified ≤ a.lastModified))) = true := ha
                rw [Bool.and_eq_true] at ha2
                exact ha2.2)
              y hfq hpy).symm

/-- C7: the selection of the "most recent" remote object is a pure,
deterministic function of the listing — `selectLatest` (filter to
`.csv`, stable-sort by descending `LastModified`, take the head, exactly
as the source) coincides with the canonical deterministic rule
`selectFirstMax`: the first `.csv` object, in listing order, of maximal
modification time.  In particular two objects with identical timestamps
are tie-broken by listing position, identically on every run over the
same listing. -/
theorem C7_selection_deterministic (objs : List S3Object) :
    selectLatest objs = selectFirstMax objs := by
  unfold selectLatest selectFirstMax
  exact head?_sortByTimeDesc (objs.filter isCsvKey)

end VehiclePrices
